import Mathlib

/-!
Verification development for the Mileshare image downloader (src/app.py).

The Python source is shallowly embedded over `Str := List Char`:
- pure helpers (`extract_url_pattern`, `images_to_pdf`, `images_to_zip`,
  `download_image_to_temp`) become Lean functions;
- the batch worker (`download_batch_worker`) becomes a function from an
  environment of external capabilities (HTTP fetch results, image decoding,
  injected I/O faults) to a record of the emitted progress events, the URLs
  fetched, the temporary/persistent file systems and the packaging calls;
- file systems (the temporary download directory, the persistent
  `./downloads` directory) are association lists keyed by file name, where
  a later write shadows an earlier one;
- Python exceptions become `Option`/explicit failure flags, following the
  `try/except` structure of the source.

`\d` of the `re` module and `int()` are modelled for ASCII digit runs
(`Char.isDigit`); the URLs in all concrete inputs are ASCII.
-/

set_option autoImplicit false

abbrev Str := List Char
abbrev Bytes := List Nat

/-! ## Generic string / list helpers (models of Python primitives) -/

/-- Leftmost split of `s` around the first occurrence of the (nonempty)
pattern `pat`: `splitFirst pat s = some (a, b)` when `s = a ++ pat ++ b`
with `pat` not occurring earlier. Models `str.find` + slicing. -/
def splitFirst (pat : Str) : Str → Option (Str × Str)
  | [] => none
  | c :: cs =>
    if pat.isPrefixOf (c :: cs) then some ([], List.drop pat.length (c :: cs))
    else
      match splitFirst pat cs with
      | none => none
      | some (x, y) => some (c :: x, y)

/-- Fuel-driven core of `replaceAll`; the fuel is an upper bound on the
number of characters still to scan, so `fuel = s.length` never runs out. -/
def replaceAllAux (pat rep : Str) : Nat → Str → Str
  | 0, s => s
  | fuel + 1, s =>
    match s with
    | [] => []
    | c :: cs =>
      if pat ≠ [] ∧ pat.isPrefixOf (c :: cs) then
        rep ++ replaceAllAux pat rep fuel (List.drop pat.length (c :: cs))
      else
        c :: replaceAllAux pat rep fuel cs

/-- Model of Python `str.replace(old, new)` (no count argument): replaces
EVERY non-overlapping occurrence of `pat`, scanning left to right, and the
replacement text is not rescanned. -/
def replaceAll (s pat rep : Str) : Str :=
  replaceAllAux pat rep s.length s

/-- The literal placeholder `"{:04d}"` inserted by `extract_url_pattern`. -/
def phStr : Str := ['{', ':', '0', '4', 'd', '}']

/-- `True` iff the string contains no brace character.  A brace that is not
part of the recognised placeholder makes Python `str.format` raise. -/
def noBrace (s : Str) : Bool := s.all (fun c => c != '{' && c != '}')

/-- Decimal digits of `n`, used to model Python integer formatting. -/
def natDigits (n : Nat) : Str := Nat.toDigits 10 n

/-- Model of `"{:04d}".format`-style padding: decimal digits of `n`,
zero-padded on the left to width at least 4. -/
def pad4 (n : Nat) : Str :=
  List.replicate (4 - (natDigits n).length) '0' ++ natDigits n

/-- Model of `url_template.format(page_num)` (Python `str.format` with one
positional argument).  Faithful on templates whose only braces come from
`"{:04d}"` placeholders: no placeholder leaves the string unchanged,
exactly one placeholder substitutes the zero-padded number, a second
placeholder raises `IndexError` (automatic field numbering with a single
argument), and any stray brace raises — all raising cases are `none`.
(Doubled-brace escapes `\x7b\x7b`/`\x7d\x7d` are conservatively treated as
errors as well; no URL in this development contains a brace.) -/
def formatTemplate (t : Str) (n : Nat) : Option Str :=
  match splitFirst phStr t with
  | none => if noBrace t then some t else none
  | some (a, b) =>
    match splitFirst phStr b with
    | some _ => none
    | none => if noBrace a && noBrace b then some (a ++ pad4 n ++ b) else none

/-- The templates on which `str.format` succeeds for every argument:
exactly one `"{:04d}"` placeholder and no other brace.  Returns the text
before and after the placeholder. -/
def goodTemplateB (t : Str) : Option (Str × Str) :=
  match splitFirst phStr t with
  | none => none
  | some (a, b) =>
    match splitFirst phStr b with
    | some _ => none
    | none => if noBrace a && noBrace b then some (a, b) else none

/-- The URL obtained from a well-formed template split `(a, b)` at page
number `n`: `a ++ pad4 n ++ b`. -/
def pageUrl (a b : Str) (n : Nat) : Str := a ++ pad4 n ++ b

/-! ## Model of `re.search(r'(\d+)(?=\.[^.]*$)', s)`

The lookahead `\.[^.]*$` forces the match to end exactly at the LAST `'.'`
of the string, and `\d+` with leftmost-then-greedy search then matches the
maximal run of decimal digits immediately preceding that dot (an earlier
digit run cannot satisfy the lookahead, and backtracking inside the run
fails because the next character is again a digit).  So the regex search
is equivalent to: take everything before the last dot and peel off its
maximal digit suffix; fail if there is no dot or the suffix is empty. -/

def extractDigitRun (s : Str) : Option Str :=
  let r := s.reverse
  let aft := r.takeWhile (fun c => c != '.')
  if aft.length = r.length then none
  else
    let runR := (r.drop (aft.length + 1)).takeWhile Char.isDigit
    if runR.isEmpty then none else some runR.reverse

/-- Model of Python `int()` on a string of decimal digits. -/
def digitsToNat (s : Str) : Nat :=
  s.foldl (fun acc c => 10 * acc + (c.toNat - '0'.toNat)) 0

/-- `extract_url_pattern(start_url, end_url)` from src/app.py: searches both
URLs for a digit run immediately before the final extension separator
(raising `ValueError` → `none` when either is missing), converts both runs
with `int()`, and builds the template with
`start_url.replace(start_match.group(1), "{:04d}")` — Python `str.replace`
replaces every occurrence. -/
def extract_url_pattern (start_url end_url : Str) : Option (Str × Nat × Nat) :=
  match extractDigitRun start_url, extractDigitRun end_url with
  | some rs, some re0 =>
    some (replaceAll start_url rs phStr, digitsToNat rs, digitsToNat re0)
  | _, _ => none

/-! ## Model of `urllib.parse.urlparse(url).path` and `os.path.basename` -/

/-- Characters allowed in a URL scheme after the leading letter. -/
def schemeChar (c : Char) : Bool :=
  c.isAlphanum || c == '+' || c == '-' || c == '.'

/-- Strip a leading `scheme:` when the text before the first `':'` is a
valid scheme (nonempty, leading ASCII letter, scheme characters only),
following CPython `urlsplit`. -/
def dropScheme (u : Str) : Str :=
  match splitFirst [':'] u with
  | none => u
  | some (a, b) =>
    match a with
    | [] => u
    | c :: cs => if c.isAlpha && (c :: cs).all schemeChar then b else u

/-- Strip a leading `//netloc`: after `//`, the network location extends to
the first `'/'`, `'?'` or `'#'`. -/
def dropNetloc (u : Str) : Str :=
  if ['/', '/'].isPrefixOf u then
    (u.drop 2).dropWhile (fun c => c != '/' && c != '?' && c != '#')
  else u

/-- Split off trailing `;parameters` from the path, as CPython `urlparse`
does on top of `urlsplit`: only a `';'` inside the LAST path segment cuts
the path. -/
def splitParamsPath (p : Str) : Str :=
  if p.contains ';' then
    if p.contains '/' then
      let seg := (p.reverse.takeWhile (fun c => c != '/')).reverse
      if seg.contains ';' then
        p.take (p.length - seg.length) ++ seg.takeWhile (fun c => c != ';')
      else p
    else p.takeWhile (fun c => c != ';')
  else p

/-- Model of `urlparse(url).path`: drop the fragment, the scheme and the
network location, cut at the query, and split off parameters. -/
def urlparsePath (url : Str) : Str :=
  splitParamsPath
    (((dropNetloc (dropScheme (url.takeWhile (fun c => c != '#'))))).takeWhile
      (fun c => c != '?'))

/-- Model of `os.path.basename` (POSIX): the text after the last `'/'`. -/
def basename (p : Str) : Str :=
  (p.reverse.takeWhile (fun c => c != '/')).reverse

/-- `os.path.basename(urlparse(url).path)`, the derived file name used both
for the temporary files and for the archive entry names. -/
def urlBasename (url : Str) : Str := basename (urlparsePath url)

/-! ## Progress events, environment, file systems -/

/-- The `status` field of a progress event. -/
inductive Status where
  | ready
  | downloading
  | converting
  | completed
  | error
  deriving DecidableEq, Repr

/-- One progress event, as emitted by `DownloadManager.emit_progress`.
The human-readable message text is not tracked; `itemIdx = some i` marks
the per-item event emitted inside the fetch loop at iteration `i` (the
event carrying `"Downloading {filename} (i+1/total)"`). -/
structure Event where
  progress : Nat
  total : Nat
  status : Status
  filename : Option Str
  itemIdx : Option Nat
  deriving DecidableEq, Repr

/-- `"Analyzing URLs..."` — progress 0, manager total still 0. -/
def evAnalyzing : Event := ⟨0, 0, Status.downloading, none, none⟩

/-- The outer `except` handler's `"Batch download failed"` event; the total
is whatever `manager.total` held when the exception was raised. -/
def evCaught (tot : Nat) : Event := ⟨0, tot, Status.error, none, none⟩

/-- `"Start number should be less than end number"` — emitted before
`manager.total` is assigned. -/
def evRangeErr : Event := ⟨0, 0, Status.error, none, none⟩

/-- `"Downloading {total_pages} pages..."`. -/
def evStartBatch (tot : Nat) : Event := ⟨0, tot, Status.downloading, none, none⟩

/-- The per-item `"Downloading {filename} (i+1/total)"` event of loop
iteration `i`. -/
def evItem (i tot : Nat) : Event := ⟨i, tot, Status.downloading, none, some i⟩

/-- `"Downloaded {k}/{total} images"`, status `converting`. -/
def evSummary (tot : Nat) : Event := ⟨tot, tot, Status.converting, none, none⟩

/-- `"Converting to PDF..."` / `"Creating ZIP archive..."`. -/
def evConvert (tot : Nat) : Event := ⟨tot, tot, Status.converting, none, none⟩

/-- `"PDF created"` / `"ZIP created"`, carrying the artifact file name. -/
def evDone (tot : Nat) (fname : Str) : Event :=
  ⟨tot, tot, Status.completed, some fname, none⟩

/-- `"Failed to create PDF"` / `"Failed to create ZIP"`. -/
def evFailedPkg (tot : Nat) : Event := ⟨tot, tot, Status.error, none, none⟩

/-- `"No images were downloaded successfully"`. -/
def evNoImages (tot : Nat) : Event := ⟨0, tot, Status.error, none, none⟩

/-- Is this the per-item event of some loop iteration? -/
def isItemB (ev : Event) : Bool := ev.itemIdx.isSome

/-- A terminal event closes the stream: status `completed` or `error`. -/
def isTerminalB (ev : Event) : Bool :=
  ev.status = Status.completed || ev.status = Status.error

/-- A decoded image as held by PIL: a mode string and (abstract) pixel
data.  `convert('RGB')` is modelled as setting the mode and keeping the
data. -/
structure PILImg where
  mode : Str
  data : Bytes
  deriving DecidableEq, Repr

/-- `img.convert('RGB')` applied when `img.mode != 'RGB'`. -/
def toRGB (i : PILImg) : PILImg :=
  if i.mode = "RGB".toList then i else ⟨"RGB".toList, i.data⟩

/-- A file produced in the persistent `./downloads` directory: a multi-page
PDF (pages in order), a ZIP archive (entries in insertion order), or a
half-written file abandoned by a failing `PIL` save. -/
inductive Artifact where
  | pdf (pages : List PILImg)
  | zipArch (entries : List (Str × Bytes))
  | corrupt
  deriving DecidableEq, Repr

/-- A directory as an association list; a later write is consed in front
and shadows older entries. -/
abbrev TempFS := List (Str × Bytes)

abbrev DlFS := List (Str × Artifact)

/-- Lookup in a directory: the most recent write wins. -/
def fsGet {α : Type} : List (Str × α) → Str → Option α
  | [], _ => none
  | (k, v) :: fs, q => if k = q then some v else fsGet fs q

/-- Write (create or overwrite) a file. -/
def fsStore {α : Type} (fs : List (Str × α)) (k : Str) (v : α) : List (Str × α) :=
  (k, v) :: fs

/-- The content of temp file `n`, defaulting to `[]` (only used where the
file is known to exist). -/
def theBytes (fs : TempFS) (n : Str) : Bytes := (fsGet fs n).getD []

/-- External capabilities and injected faults for one batch job:
`fetch url` is the body returned by a successful `requests.get`
(2xx status), or `none` when the request raises or `raise_for_status`
fires; `openImg` is `PIL.Image.open` on the bytes of a temp file;
`zipFail k` injects an I/O fault into the `k`-th `zipf.write` call;
`pdfSaveFail` injects a fault into `images[0].save`. -/
structure Env where
  fetch : Str → Option Bytes
  openImg : Bytes → Option PILImg
  zipFail : Nat → Bool
  pdfSaveFail : Bool

/-! ## `download_image_to_temp` -/

/-- `download_image_to_temp(url, temp_dir)` from src/app.py: fetch the
URL (any exception → `None`), derive the file name from the URL path, and
write the body to `temp_dir/filename`.  An empty file name makes
`open(temp_dir + '/', 'wb')` raise `IsADirectoryError`, which the
`except` also turns into `None`.  Returns the recorded item (the temp
file name, or `none` for an absent item) and the updated temp
directory. -/
def download_image_to_temp (fetch : Str → Option Bytes) (url : Str)
    (fs : TempFS) : Option Str × TempFS :=
  match fetch url with
  | none => (none, fs)
  | some content =>
    let filename := urlBasename url
    if filename.isEmpty then (none, fs)
    else (some filename, fsStore fs filename content)

/-- The item recorded for `url` (independent of the directory state). -/
def itemResult (env : Env) (url : Str) : Option Str :=
  match env.fetch url with
  | none => none
  | some _ => if (urlBasename url).isEmpty then none else some (urlBasename url)

/-- The effect of one loop iteration on the temp directory. -/
def itemWrite (env : Env) (fs : TempFS) (url : Str) : TempFS :=
  match env.fetch url with
  | none => fs
  | some content =>
    if (urlBasename url).isEmpty then fs
    else fsStore fs (urlBasename url) content

/-! ## Packagers -/

/-- The image-collection loop of `images_to_pdf`: skip paths that are
falsy or do not exist, `Image.open` each remaining file (a raise fails the
whole call → `none`), converting non-RGB images to RGB. -/
def openAll (env : Env) (fs : TempFS) : List Str → Option (List PILImg)
  | [] => some []
  | p :: ps =>
    if p.isEmpty then openAll env fs ps
    else
      match fsGet fs p with
      | none => openAll env fs ps
      | some content =>
        match env.openImg content with
        | none => none
        | some img => (openAll env fs ps).map (fun rest => toRGB img :: rest)

/-- `images_to_pdf(image_paths, output_path)` from src/app.py: collect and
convert the images (any decode error → `False`, nothing written), fail on
an empty collection, then save all pages to `output_path` in input order.
A fault inside the save leaves a half-written file at the final path. -/
def images_to_pdf (env : Env) (fs : TempFS) (paths : List Str) (dls : DlFS)
    (outName : Str) : Bool × DlFS :=
  match openAll env fs paths with
  | none => (false, dls)
  | some imgs =>
    if imgs.isEmpty then (false, dls)
    else if env.pdfSaveFail then (false, fsStore dls outName Artifact.corrupt)
    else (true, fsStore dls outName (Artifact.pdf imgs))

/-- The entry-writing loop of `images_to_zip`.  `zipfile.ZipFile(path,'w')`
has already created the output file; each existing input file is written
under its base name; an injected fault on the `k`-th write aborts the
loop, and closing the archive leaves the entries written so far at the
final path. -/
def zipGo (env : Env) (fs : TempFS) :
    List Str → Nat → List (Str × Bytes) → Bool × List (Str × Bytes)
  | [], _, acc => (true, acc)
  | p :: ps, k, acc =>
    if p.isEmpty then zipGo env fs ps k acc
    else
      match fsGet fs p with
      | none => zipGo env fs ps k acc
      | some content =>
        if env.zipFail k then (false, acc)
        else zipGo env fs ps (k + 1) (acc ++ [(basename p, content)])

/-- `images_to_zip(image_paths, output_path)` from src/app.py.  In both
outcomes a file exists at the final path (the archive is created on open
and the central directory is written on close); the Boolean reports
whether every write succeeded. -/
def images_to_zip (env : Env) (fs : TempFS) (paths : List Str) (dls : DlFS)
    (outName : Str) : Bool × DlFS :=
  let r := zipGo env fs paths 0 []
  (r.1, fsStore dls outName (Artifact.zipArch r.2))

/-- Model of `ZipFile.read(name)`: `NameToInfo` is built in insertion
order, so a duplicate entry name resolves to the LAST entry bearing it. -/
def zipRead (entries : List (Str × Bytes)) (name : Str) : Option Bytes :=
  ((entries.filter (fun e => e.1 = name)).getLast?).map (fun e => e.2)

/-! ## The batch worker -/

/-- Result of one run of `download_batch_worker`: the progress-event trace,
the URLs passed to `requests.get` (in call order), the packaging call that
was made (output file name and input paths), if any, and the final state
of the `./downloads` directory. -/
structure WorkerOut where
  trace : List Event
  fetchLog : List Str
  pkg : Option (Str × List Str)
  downloads : DlFS
  deriving DecidableEq, Repr

/-- State carried out of the fetch loop. -/
structure LoopOut where
  events : List Event
  log : List Str
  images : List (Option Str)
  fs : TempFS
  raised : Bool
  deriving DecidableEq, Repr

/-- The fetch loop of `download_batch_worker`
(`for i, page_num in enumerate(range(start_num, end_num + 1))`):
format the URL (a `str.format` raise propagates: the loop stops, events so
far stand, the outer handler takes over), emit the per-item event, fetch
into the temp directory, record present/absent. -/
def batchLoop (env : Env) (tpl : Str) (total : Nat) :
    List Nat → Nat → TempFS → LoopOut
  | [], _, fs => ⟨[], [], [], fs, false⟩
  | p :: ps, i, fs =>
    match formatTemplate tpl p with
    | none => ⟨[], [], [], fs, true⟩
    | some url =>
      let step := download_image_to_temp env.fetch url fs
      let rest := batchLoop env tpl total ps (i + 1) step.2
      ⟨evItem i total :: rest.events, url :: rest.log, step.1 :: rest.images,
        rest.fs, rest.raised⟩

/-- The tail of `download_batch_worker` after the fetch loop: filter the
failed downloads, bail out with an error event when nothing succeeded,
emit the summary event, then call the packager selected by
`output_format` and emit the final event.  An unrecognised format (never
produced by the validated route) falls through silently. -/
def workerPost (env : Env) (dls0 : DlFS) (output_name output_format : Str)
    (total : Nat) (evs : List Event) (log : List Str) (valid : List Str)
    (fsF : TempFS) : WorkerOut :=
  let pre := [evAnalyzing, evStartBatch total] ++ evs
  if valid.isEmpty then
    ⟨pre ++ [evNoImages total], log, none, dls0⟩
  else if output_format = "pdf".toList then
    let outName := output_name ++ ".pdf".toList
    let r := images_to_pdf env fsF valid dls0 outName
    if r.1 then
      ⟨pre ++ [evSummary total, evConvert total, evDone total outName], log,
        some (outName, valid), r.2⟩
    else
      ⟨pre ++ [evSummary total, evConvert total, evFailedPkg total], log,
        some (outName, valid), r.2⟩
  else if output_format = "zip".toList then
    let outName := output_name ++ ".zip".toList
    let r := images_to_zip env fsF valid dls0 outName
    if r.1 then
      ⟨pre ++ [evSummary total, evConvert total, evDone total outName], log,
        some (outName, valid), r.2⟩
    else
      ⟨pre ++ [evSummary total, evConvert total, evFailedPkg total], log,
        some (outName, valid), r.2⟩
  else
    ⟨pre ++ [evSummary total], log, none, dls0⟩

/-- `download_batch_worker(manager, start_url, end_url, output_name,
output_format)` from src/app.py, as a function of the environment and of
the initial `./downloads` directory.  `extract_url_pattern` raising
`ValueError`, or `str.format` raising inside the loop, is caught by the
outer `except`, which emits the terminal error event. -/
def download_batch_worker (env : Env) (dls0 : DlFS)
    (start_url end_url output_name output_format : Str) : WorkerOut :=
  match extract_url_pattern start_url end_url with
  | none => ⟨[evAnalyzing, evCaught 0], [], none, dls0⟩
  | some (tpl, s, e) =>
    if s > e then ⟨[evAnalyzing, evRangeErr], [], none, dls0⟩
    else
      let total := e - s + 1
      let L := batchLoop env tpl total (List.range' s total) 0 []
      if L.raised then
        ⟨[evAnalyzing, evStartBatch total] ++ L.events ++ [evCaught total],
          L.log, none, dls0⟩
      else
        workerPost env dls0 output_name output_format total L.events L.log
          (L.images.filterMap id) L.fs

/-! ## The single-download route -/

/-- Python default `str.strip` characters (ASCII fragment). -/
def pyWhitespace (c : Char) : Bool :=
  c == ' ' || c == '\t' || c == '\n' || c == '\r' || c == '\x0b' || c == '\x0c'

/-- Model of Python `str.strip()`. -/
def pyStrip (s : Str) : Str :=
  ((s.dropWhile pyWhitespace).reverse.dropWhile pyWhitespace).reverse

/-- The `/api/download/single` route handler `download_single` from
src/app.py, modelled up to the worker hand-off: `urlField` is
`data.get('url', '')` (`none` when the key is missing), `freshId` stands
for `uuid.uuid4()`, `registry` for the `active_downloads` mapping (job ids
in insertion order).  Returns the HTTP status code, the returned job id if
any, and the updated registry; on the rejection paths the handler returns
before the registry insert and before any worker thread starts. -/
def download_single (registry : List Str) (freshId : Str)
    (urlField : Option Str) : (Nat × Option Str) × List Str :=
  let url := pyStrip (urlField.getD [])
  if url.isEmpty then ((400, none), registry)
  else if !("http://".toList.isPrefixOf url || "https://".toList.isPrefixOf url) then
    ((400, none), registry)
  else ((200, some freshId), freshId :: registry)

/-! ## Basic lemmas about the store and small list facts -/

theorem fsGet_fsStore {α : Type} (fs : List (Str × α)) (k q : Str) (v : α) :
    fsGet (fsStore fs k v) q = if k = q then some v else fsGet fs q := rfl

theorem getLast?_cons_eq {α : Type} (a : α) (l : List α) :
    (a :: l).getLast? = some (l.getLast?.getD a) := by
  induction l generalizing a with
  | nil => rfl
  | cons b bs ih =>
    rw [List.getLast?_cons_cons, ih b]
    rfl

theorem dropWhile_head_false {α : Type} (p : α → Bool) (l : List α) (c : α)
    (cs : List α) (h : l.dropWhile p = c :: cs) : p c = false := by
  induction l with
  | nil => simp at h
  | cons x xs ih =>
    rw [List.dropWhile_cons] at h
    split at h
    · exact ih h
    · rename_i hx
      injection h with h1 _
      subst h1
      exact Bool.not_eq_true _ ▸ (by simpa using hx)

theorem getLast?_of_all_eq {α : Type} (l : List α) (v : α) (hne : l ≠ [])
    (hall : ∀ x ∈ l, x = v) : l.getLast? = some v := by
  induction l with
  | nil => exact absurd rfl hne
  | cons a bs ih =>
    rw [getLast?_cons_eq]
    cases hb : bs with
    | nil => simp [hall a (by simp)]
    | cons b bs' =>
      subst hb
      rw [ih (by simp) (fun x hx => hall x (by simp [hx]))]
      simp [hall a (by simp)]

/-! ## Characterisation of the regex search -/

/-- What `extractDigitRun` computes, structurally: the start URL decomposes
as `pre ++ run ++ '.' :: post` where `post` is dot-free (so this `'.'` is
the final extension separator), `run` is a nonempty string of decimal
digits, and `pre` does not end in a digit (so `run` is the maximal,
i.e. rightmost, digit run touching that dot). -/
theorem extractDigitRun_spec (s r : Str) (h : extractDigitRun s = some r) :
    ∃ pre post, s = pre ++ r ++ '.' :: post ∧ r ≠ [] ∧
      (∀ c ∈ r, c.isDigit = true) ∧ (∀ c ∈ post, c ≠ '.') ∧
      (∀ c, pre.getLast? = some c → c.isDigit = false) := by
  unfold extractDigitRun at h
  set rv := s.reverse with hrv
  set aft := rv.takeWhile (fun c => c != '.') with haft
  by_cases hlen : aft.length = rv.length
  · simp [hlen] at h
  · rw [if_neg hlen] at h
    set runR := (rv.drop (aft.length + 1)).takeWhile Char.isDigit with hrunR
    by_cases hemp : runR.isEmpty
    · simp [hemp] at h
    · rw [if_neg hemp] at h
      injection h with h
      subst h
      cases hd : rv.dropWhile (fun c => c != '.') with
      | nil =>
        exfalso
        apply hlen
        have : aft ++ rv.dropWhile (fun c => c != '.') = rv :=
          List.takeWhile_append_dropWhile _ _
        rw [hd, List.append_nil] at this
        rw [this]
      | cons d tl =>
        have hdot : d = '.' := by
          have := dropWhile_head_false _ rv d tl hd
          simpa using this
        subst hdot
        have hsplit : rv = aft ++ '.' :: tl := by
          conv_lhs => rw [(List.takeWhile_append_dropWhile
            (fun c => c != '.') rv).symm]
          rw [hd]
        have hdropped : rv.drop (aft.length + 1) = tl := by
          have h1 : rv.drop aft.length = '.' :: tl := by
            rw [hsplit, List.drop_left]
          have h2 : rv.drop (aft.length + 1) = (rv.drop aft.length).drop 1 := by
            rw [List.drop_drop]
          rw [h2, h1]
          rfl
        rw [hdropped] at hrunR
        have htl : tl = runR ++ tl.dropWhile Char.isDigit := by
          conv_lhs => rw [(List.takeWhile_append_dropWhile Char.isDigit tl).symm]
          rw [← hrunR]
        refine ⟨(tl.dropWhile Char.isDigit).reverse, aft.reverse, ?_, ?_, ?_, ?_, ?_⟩
        · have hs : s = rv.reverse := by rw [hrv, List.reverse_reverse]
          have h3 : s = (aft ++ '.' :: (runR ++ tl.dropWhile Char.isDigit)).reverse := by
            rw [← htl, hs, hsplit]
          rw [h3]
          simp [List.reverse_append, List.append_assoc]
        · simp only [ne_eq, List.reverse_eq_nil_iff]
          intro hc
          rw [hc] at hemp
          exact hemp rfl
        · intro c hc
          rw [List.mem_reverse] at hc
          exact List.mem_takeWhile_imp (hrunR ▸ hc)
        · intro c hc
          rw [List.mem_reverse] at hc
          have := List.mem_takeWhile_imp (haft ▸ hc)
          simpa using this
        · intro c hc
          rw [List.getLast?_reverse] at hc
          cases hdw : tl.dropWhile Char.isDigit with
          | nil => rw [hdw] at hc; simp at hc
          | cons x xs =>
            rw [hdw] at hc
            simp only [List.head?_cons, Option.some.injEq] at hc
            subst hc
            exact dropWhile_head_false _ tl _ _ hdw

/-! ## Unfolding the fetch loop -/

theorem download_image_to_temp_eq (env : Env) (url : Str) (fs : TempFS) :
    download_image_to_temp env.fetch url fs =
      (itemResult env url, itemWrite env fs url) := by
  unfold download_image_to_temp itemResult itemWrite
  cases hf : env.fetch url with
  | none => rfl
  | some c =>
    by_cases he : (urlBasename url).isEmpty
    · simp [he]
    · simp [he]

theorem formatTemplate_good (t a b : Str) (h : goodTemplateB t = some (a, b))
    (n : Nat) : formatTemplate t n = some (pageUrl a b n) := by
  unfold goodTemplateB at h
  unfold formatTemplate pageUrl
  cases h1 : splitFirst phStr t with
  | none => rw [h1] at h; simp at h
  | some ab =>
    obtain ⟨a', b'⟩ := ab
    simp only [h1] at h ⊢
    cases h2 : splitFirst phStr b' with
    | some _ => rw [h2] at h; simp at h
    | none =>
      simp only [h2] at h ⊢
      split at h
      · injection h with h
        injection h with ha hb
        subst ha; subst hb
        rename_i hcond
        rw [if_pos hcond]
      · simp at h

theorem batchLoop_eq (env : Env) (tpl a b : Str) (total : Nat)
    (hgood : goodTemplateB tpl = some (a, b)) :
    ∀ (ps : List Nat) (i : Nat) (fs : TempFS),
      batchLoop env tpl total ps i fs =
        ⟨(List.range' i ps.length).map (fun j => evItem j total),
          ps.map (pageUrl a b),
          ps.map (fun p => itemResult env (pageUrl a b p)),
          ps.foldl (fun s p => itemWrite env s (pageUrl a b p)) fs,
          false⟩ := by
  intro ps
  induction ps with
  | nil => intro i fs; rfl
  | cons p ps ih =>
    intro i fs
    show (match formatTemplate tpl p with
      | none => (⟨[], [], [], fs, true⟩ : LoopOut)
      | some url =>
        let step := download_image_to_temp env.fetch url fs
        let rest := batchLoop env tpl total ps (i + 1) step.2
        ⟨evItem i total :: rest.events, url :: rest.log, step.1 :: rest.images,
          rest.fs, rest.raised⟩) = _
    rw [formatTemplate_good tpl a b hgood p]
    simp only [download_image_to_temp_eq, ih (i + 1)]
    simp [List.range'_succ]

/-! ## Named pieces of a batch run (used to state the properties) -/

/-- `range(start_num, end_num + 1)` (ascending page numbers). -/
def pagesOf (s e : Nat) : List Nat := List.range' s (e - s + 1)

/-- The per-item events of a full loop over `total` pages. -/
def itemEvs (total : Nat) : List Event :=
  (List.range' 0 total).map (fun j => evItem j total)

/-- The items recorded by the loop, one per page, present or absent. -/
def loopImages (env : Env) (a b : Str) (s e : Nat) : List (Option Str) :=
  (pagesOf s e).map (fun p => itemResult env (pageUrl a b p))

/-- `valid_images`: the successfully fetched items, failed ones dropped. -/
def validImages (env : Env) (a b : Str) (s e : Nat) : List Str :=
  (loopImages env a b s e).filterMap id

/-- The temp directory at the end of the loop. -/
def loopFS (env : Env) (a b : Str) (s e : Nat) : TempFS :=
  (pagesOf s e).foldl (fun fs p => itemWrite env fs (pageUrl a b p)) []

/-- The URLs fetched, in order. -/
def loopLog (a b : Str) (s e : Nat) : List Str :=
  (pagesOf s e).map (pageUrl a b)

/-- Unfolding of a batch run whose extraction succeeded with a valid range
and a template `str.format` accepts: the run is the post-loop code applied
to the loop's outputs. -/
theorem download_batch_worker_eq (env : Env) (dls0 : DlFS)
    (su eu output_name output_format tpl a b : Str) (s e : Nat)
    (hex : extract_url_pattern su eu = some (tpl, s, e))
    (hse : s ≤ e) (hgood : goodTemplateB tpl = some (a, b)) :
    download_batch_worker env dls0 su eu output_name output_format =
      workerPost env dls0 output_name output_format (e - s + 1)
        (itemEvs (e - s + 1)) (loopLog a b s e) (validImages env a b s e)
        (loopFS env a b s e) := by
  unfold download_batch_worker
  simp only [hex]
  rw [if_neg (Nat.not_lt.mpr hse)]
  rw [batchLoop_eq env tpl a b (e - s + 1) hgood (List.range' s (e - s + 1)) 0 []]
  simp only [List.length_range']
  rfl

/-! ## What the loop leaves in the temp directory -/

/-- The bytes page `p` contributes to temp file `n`: its fetch result when
the loop records item `n` for `p`, nothing otherwise. -/
def contribOf (env : Env) (a b : Str) (n : Str) (p : Nat) : Option Bytes :=
  if itemResult env (pageUrl a b p) = some n then env.fetch (pageUrl a b p)
  else none

theorem itemResult_some (env : Env) (url : Str) (n : Str)
    (h : itemResult env url = some n) :
    urlBasename url = n ∧ (urlBasename url).isEmpty = false ∧
      ∃ c, env.fetch url = some c := by
  unfold itemResult at h
  cases hf : env.fetch url with
  | none => rw [hf] at h; exact absurd h (by simp)
  | some c =>
    rw [hf] at h
    by_cases he : (urlBasename url).isEmpty
    · rw [if_pos he] at h; exact absurd h (by simp)
    · rw [if_neg he] at h
      injection h with h
      exact ⟨h, Bool.not_eq_true _ ▸ (by simpa using he), c, rfl⟩

theorem itemWrite_of_some (env : Env) (fs : TempFS) (url n : Str) (c : Bytes)
    (hir : itemResult env url = some n) (hf : env.fetch url = some c) :
    itemWrite env fs url = fsStore fs n c := by
  obtain ⟨hname, hne, -⟩ := itemResult_some env url n hir
  unfold itemWrite
  simp only [hf]
  rw [if_neg (by rw [hne]; simp), hname]

theorem fsGet_itemWrite_of_not (env : Env) (fs : TempFS) (url n : Str)
    (h : itemResult env url ≠ some n) :
    fsGet (itemWrite env fs url) n = fsGet fs n := by
  unfold itemWrite
  cases hf : env.fetch url with
  | none => rfl
  | some c =>
    simp only [hf]
    by_cases he : (urlBasename url).isEmpty
    · rw [if_pos he]
    · rw [if_neg he]
      rw [fsGet_fsStore]
      rw [if_neg]
      intro hkq
      apply h
      unfold itemResult
      rw [hf, if_neg he, hkq]

theorem fsGet_loop (env : Env) (a b : Str) (n : Str) :
    ∀ (ps : List Nat) (fs : TempFS),
      fsGet (ps.foldl (fun s p => itemWrite env s (pageUrl a b p)) fs) n =
        match (ps.filterMap (contribOf env a b n)).getLast? with
        | some c => some c
        | none => fsGet fs n := by
  intro ps
  induction ps with
  | nil => intro fs; rfl
  | cons p ps ih =>
    intro fs
    rw [List.foldl_cons, ih, List.filterMap_cons]
    cases hcp : contribOf env a b n p with
    | none =>
      cases hg : (ps.filterMap (contribOf env a b n)).getLast? with
      | some c => rfl
      | none =>
        have hnot : itemResult env (pageUrl a b p) ≠ some n := by
          intro hr
          unfold contribOf at hcp
          rw [if_pos hr] at hcp
          obtain ⟨-, -, c, hc⟩ := itemResult_some env _ n hr
          rw [hc] at hcp
          exact absurd hcp (by simp)
        exact fsGet_itemWrite_of_not env fs _ n hnot
    | some c =>
      have hr : itemResult env (pageUrl a b p) = some n := by
        by_contra hr
        unfold contribOf at hcp
        rw [if_neg hr] at hcp
        exact absurd hcp (by simp)
      have hf : env.fetch (pageUrl a b p) = some c := by
        unfold contribOf at hcp
        rw [if_pos hr] at hcp
        exact hcp
      rw [itemWrite_of_some env fs _ n c hr hf]
      rw [getLast?_cons_eq]
      cases hg : (ps.filterMap (contribOf env a b n)).getLast? with
      | some c' => simp
      | none =>
        simp only [Option.getD_none]
        rw [fsGet_fsStore, if_pos rfl]

/-! ## Base names have no slash -/

theorem takeWhile_all {α : Type} (p : α → Bool) (l : List α)
    (h : ∀ x ∈ l, p x = true) : l.takeWhile p = l := by
  induction l with
  | nil => rfl
  | cons x xs ih =>
    rw [List.takeWhile_cons, if_pos (h x (by simp))]
    rw [ih (fun y hy => h y (by simp [hy]))]

theorem urlBasename_no_slash (u : Str) : ∀ c ∈ urlBasename u, c ≠ '/' := by
  intro c hc
  unfold urlBasename basename at hc
  rw [List.mem_reverse] at hc
  have := List.mem_takeWhile_imp hc
  simpa using this

theorem basename_self_of_no_slash (sx : Str) (h : ∀ c ∈ sx, c ≠ '/') :
    basename sx = sx := by
  unfold basename
  rw [takeWhile_all _ _ (fun x hx => by
    rw [List.mem_reverse] at hx
    simpa using h x hx)]
  exact List.reverse_reverse sx

/-! ## Every valid item is present in the final temp directory -/

theorem validImages_mem (env : Env) (a b : Str) (s e : Nat) (n : Str)
    (hn : n ∈ validImages env a b s e) :
    n.isEmpty = false ∧ (fsGet (loopFS env a b s e) n).isSome = true ∧
      basename n = n := by
  unfold validImages at hn
  rw [List.mem_filterMap] at hn
  obtain ⟨o, ho, hon⟩ := hn
  obtain rfl : o = some n := hon
  unfold loopImages at ho
  rw [List.mem_map] at ho
  obtain ⟨p, hp, hpn⟩ := ho
  obtain ⟨hname, hne, c, hc⟩ := itemResult_some env _ n hpn
  have hcontrib : contribOf env a b n p = some c := by
    unfold contribOf
    rw [if_pos hpn, hc]
  have hmemfm : c ∈ (pagesOf s e).filterMap (contribOf env a b n) :=
    List.mem_filterMap.mpr ⟨p, hp, hcontrib⟩
  have hnenil := List.ne_nil_of_mem hmemfm
  have hsome := List.getLast?_isSome.mpr hnenil
  refine ⟨hname ▸ hne, ?_, ?_⟩
  · unfold loopFS
    rw [fsGet_loop]
    obtain ⟨c', hc'⟩ := Option.isSome_iff_exists.mp hsome
    rw [hc']
    rfl
  · exact hname ▸ basename_self_of_no_slash _ (urlBasename_no_slash _)

/-! ## Packager unfoldings -/

theorem zipGo_ok (env : Env) (fs : TempFS) (hzf : ∀ k, env.zipFail k = false) :
    ∀ (paths : List Str),
      (∀ n ∈ paths, n.isEmpty = false ∧ (fsGet fs n).isSome = true) →
      ∀ (k : Nat) (acc : List (Str × Bytes)),
      zipGo env fs paths k acc =
        (true, acc ++ paths.map (fun n => (basename n, theBytes fs n))) := by
  intro paths
  induction paths with
  | nil => intro _ k acc; simp [zipGo]
  | cons p ps ih =>
    intro hpre k acc
    obtain ⟨hpe, hps⟩ := hpre p (by simp)
    obtain ⟨c, hc⟩ := Option.isSome_iff_exists.mp hps
    unfold zipGo
    rw [if_neg (by rw [hpe]; simp)]
    simp only [hc]
    rw [if_neg (by rw [hzf k]; simp)]
    rw [ih (fun n hn => hpre n (by simp [hn])) (k + 1)]
    have : theBytes fs p = c := by unfold theBytes; rw [hc]; rfl
    simp [this]

theorem openAll_ok (env : Env) (fs : TempFS) :
    ∀ (paths : List Str),
      (∀ n ∈ paths, n.isEmpty = false ∧ (fsGet fs n).isSome = true ∧
        (env.openImg (theBytes fs n)).isSome = true) →
      openAll env fs paths =
        some (paths.map
          (fun n => toRGB ((env.openImg (theBytes fs n)).getD ⟨[], []⟩))) := by
  intro paths
  induction paths with
  | nil => intro _; rfl
  | cons p ps ih =>
    intro hpre
    obtain ⟨hpe, hps, hpd⟩ := hpre p (by simp)
    obtain ⟨c, hc⟩ := Option.isSome_iff_exists.mp hps
    have hb : theBytes fs p = c := by unfold theBytes; rw [hc]; rfl
    obtain ⟨img, himg⟩ := Option.isSome_iff_exists.mp (hb ▸ hpd)
    unfold openAll
    rw [if_neg (by rw [hpe]; simp)]
    simp only [hc]
    simp only [show env.openImg c = some img from hb ▸ himg]
    rw [ih (fun n hn => hpre n (by simp [hn]))]
    simp [hb, himg]

/-! ## The four outcomes of the post-loop code -/

theorem workerPost_nil (env : Env) (dls0 : DlFS) (name fmt : Str) (total : Nat)
    (evs : List Event) (log : List Str) (fsF : TempFS) :
    workerPost env dls0 name fmt total evs log [] fsF =
      ⟨[evAnalyzing, evStartBatch total] ++ evs ++ [evNoImages total], log,
        none, dls0⟩ := by
  simp [workerPost]

theorem workerPost_zip_ok (env : Env) (dls0 : DlFS) (name : Str) (total : Nat)
    (evs : List Event) (log : List Str) (valid : List Str) (fsF : TempFS)
    (hvne : valid ≠ [])
    (hpre : ∀ n ∈ valid, n.isEmpty = false ∧ (fsGet fsF n).isSome = true)
    (hzf : ∀ k, env.zipFail k = false) :
    workerPost env dls0 name "zip".toList total evs log valid fsF =
      ⟨[evAnalyzing, evStartBatch total] ++ evs ++
          [evSummary total, evConvert total,
            evDone total (name ++ ".zip".toList)],
        log, some (name ++ ".zip".toList, valid),
        fsStore dls0 (name ++ ".zip".toList)
          (Artifact.zipArch
            (valid.map (fun n => (basename n, theBytes fsF n))))⟩ := by
  have hz : images_to_zip env fsF valid dls0 (name ++ ".zip".toList) =
      (true, fsStore dls0 (name ++ ".zip".toList)
        (Artifact.zipArch
          (valid.map (fun n => (basename n, theBytes fsF n))))) := by
    unfold images_to_zip
    rw [zipGo_ok env fsF hzf valid hpre 0 []]
    simp
  unfold workerPost
  rw [if_neg (by rw [List.isEmpty_eq_false.mpr hvne]; simp)]
  rw [if_neg (by decide : ¬ (("zip".toList : Str) = "pdf".toList))]
  rw [if_pos rfl]
  simp only [hz]
  simp

theorem workerPost_zip_fail (env : Env) (dls0 : DlFS) (name : Str)
    (total : Nat) (evs : List Event) (log : List Str) (valid : List Str)
    (fsF : TempFS) (hvne : valid ≠ [])
    (hfail : (images_to_zip env fsF valid dls0 (name ++ ".zip".toList)).1 = false) :
    workerPost env dls0 name "zip".toList total evs log valid fsF =
      ⟨[evAnalyzing, evStartBatch total] ++ evs ++
          [evSummary total, evConvert total, evFailedPkg total],
        log, some (name ++ ".zip".toList, valid),
        (images_to_zip env fsF valid dls0 (name ++ ".zip".toList)).2⟩ := by
  unfold workerPost
  rw [if_neg (by rw [List.isEmpty_eq_false.mpr hvne]; simp)]
  rw [if_neg (by decide : ¬ (("zip".toList : Str) = "pdf".toList))]
  rw [if_pos rfl]
  simp only [hfail]
  simp

theorem workerPost_pdf_ok (env : Env) (dls0 : DlFS) (name : Str) (total : Nat)
    (evs : List Event) (log : List Str) (valid : List Str) (fsF : TempFS)
    (hvne : valid ≠ [])
    (hpre : ∀ n ∈ valid, n.isEmpty = false ∧ (fsGet fsF n).isSome = true ∧
      (env.openImg (theBytes fsF n)).isSome = true)
    (hsave : env.pdfSaveFail = false) :
    workerPost env dls0 name "pdf".toList total evs log valid fsF =
      ⟨[evAnalyzing, evStartBatch total] ++ evs ++
          [evSummary total, evConvert total,
            evDone total (name ++ ".pdf".toList)],
        log, some (name ++ ".pdf".toList, valid),
        fsStore dls0 (name ++ ".pdf".toList)
          (Artifact.pdf (valid.map
            (fun n => toRGB ((env.openImg (theBytes fsF n)).getD ⟨[], []⟩))))⟩ := by
  have hp : images_to_pdf env fsF valid dls0 (name ++ ".pdf".toList) =
      (true, fsStore dls0 (name ++ ".pdf".toList)
        (Artifact.pdf (valid.map
          (fun n => toRGB ((env.openImg (theBytes fsF n)).getD ⟨[], []⟩))))) := by
    unfold images_to_pdf
    simp only [openAll_ok env fsF valid hpre]
    rw [if_neg (by simp [List.isEmpty_iff]; exact hvne)]
    rw [if_neg (by rw [hsave]; simp)]
  unfold workerPost
  rw [if_neg (by rw [List.isEmpty_eq_false.mpr hvne]; simp)]
  rw [if_pos rfl]
  simp only [hp]
  simp

theorem workerPost_pdf_fail (env : Env) (dls0 : DlFS) (name : Str)
    (total : Nat) (evs : List Event) (log : List Str) (valid : List Str)
    (fsF : TempFS) (hvne : valid ≠ [])
    (hfail : (images_to_pdf env fsF valid dls0 (name ++ ".pdf".toList)).1 = false) :
    workerPost env dls0 name "pdf".toList total evs log valid fsF =
      ⟨[evAnalyzing, evStartBatch total] ++ evs ++
          [evSummary total, evConvert total, evFailedPkg total],
        log, some (name ++ ".pdf".toList, valid),
        (images_to_pdf env fsF valid dls0 (name ++ ".pdf".toList)).2⟩ := by
  unfold workerPost
  rw [if_neg (by rw [List.isEmpty_eq_false.mpr hvne]; simp)]
  rw [if_pos rfl]
  simp only [hfail]
  simp

/-! ## Trace tails and the last write under a name -/

theorem getLast?_pre_tail {α : Type} (l1 l2 tail : List α) (x : α)
    (h : tail.getLast? = some x) : (l1 ++ (l2 ++ tail)).getLast? = some x := by
  rw [List.getLast?_append, List.getLast?_append, h]
  rfl

theorem workerPost_trace_shape (env : Env) (dls0 : DlFS) (name fmt : Str)
    (total : Nat) (evs : List Event) (log : List Str) (valid : List Str)
    (fsF : TempFS) :
    ∃ tail, (workerPost env dls0 name fmt total evs log valid fsF).trace =
      ([evAnalyzing, evStartBatch total] ++ evs) ++ tail ∧
      tail.filter isItemB = [] := by
  simp only [workerPost]
  split_ifs
  · exact ⟨[evNoImages total], by simp, by simp [isItemB, evNoImages]⟩
  · exact ⟨[evSummary total, evConvert total, evDone total (name ++ ".pdf".toList)],
      by simp, by simp [isItemB, evSummary, evConvert, evDone]⟩
  · exact ⟨[evSummary total, evConvert total, evFailedPkg total],
      by simp, by simp [isItemB, evSummary, evConvert, evFailedPkg]⟩
  · exact ⟨[evSummary total, evConvert total, evDone total (name ++ ".zip".toList)],
      by simp, by simp [isItemB, evSummary, evConvert, evDone]⟩
  · exact ⟨[evSummary total, evConvert total, evFailedPkg total],
      by simp, by simp [isItemB, evSummary, evConvert, evFailedPkg]⟩
  · exact ⟨[evSummary total], by simp, by simp [isItemB, evSummary]⟩

theorem loopFS_last (env : Env) (a b f : Str) (s e p : Nat) (bts : Bytes)
    (hp : p ∈ pagesOf s e) (hres : itemResult env (pageUrl a b p) = some f)
    (hf : env.fetch (pageUrl a b p) = some bts)
    (hlast : ∀ q ∈ pagesOf s e, p < q →
      itemResult env (pageUrl a b q) ≠ some f) :
    fsGet (loopFS env a b s e) f = some bts := by
  have hbounds := List.mem_range'_1.mp (by unfold pagesOf at hp; exact hp)
  obtain ⟨k, hk⟩ : ∃ k, (e - s + 1) - (p - s) = k + 1 :=
    ⟨(e - s + 1) - (p - s) - 1, by omega⟩
  have hdecomp : pagesOf s e =
      List.range' s (p - s) ++ p :: List.range' (p + 1) k := by
    have h1 := List.range'_append s (p - s) ((e - s + 1) - (p - s)) 1
    rw [one_mul, Nat.add_sub_cancel' hbounds.1] at h1
    have h2 : (e - s + 1) - (p - s) + (p - s) = e - s + 1 := by omega
    rw [h2, hk, List.range'_succ] at h1
    unfold pagesOf
    exact h1.symm
  unfold loopFS
  rw [fsGet_loop, hdecomp, List.filterMap_append, List.filterMap_cons]
  have hcp : contribOf env a b f p = some bts := by
    unfold contribOf
    rw [if_pos hres, hf]
  rw [hcp]
  have htail : (List.range' (p + 1) k).filterMap (contribOf env a b f) = [] := by
    rw [List.filterMap_eq_nil_iff]
    intro q hq
    have hqb := List.mem_range'_1.mp hq
    have hqmem : q ∈ pagesOf s e := by
      rw [hdecomp]
      exact List.mem_append.mpr (Or.inr (by simp [hq]))
    unfold contribOf
    rw [if_neg (hlast q hqmem (by omega))]
  rw [htail, List.getLast?_concat]

/-! ## Concrete environments for witnesses and counterexamples -/

/-- Every fetch succeeds with body `[7]`; every body decodes (mode `L`). -/
def envAllOk : Env :=
  ⟨fun _ => some [7], fun bb => some ⟨"L".toList, bb⟩, fun _ => false, false⟩

/-- Every fetch fails. -/
def envNoFetch : Env := ⟨fun _ => none, fun _ => none, fun _ => false, false⟩

/-- Every fetch succeeds, but the bytes do not decode as an image. -/
def envBadImg : Env :=
  ⟨fun _ => some [1, 2, 3], fun _ => none, fun _ => false, false⟩

/-- Every fetch succeeds; writing any ZIP entry raises an I/O error. -/
def envZipFault : Env :=
  ⟨fun _ => some [5], fun bb => some ⟨"RGB".toList, bb⟩, fun _ => true, false⟩

/-- The URL of page 12 of the colliding batch (`C8`). -/
def urlPage12 : Str := "http://e.com/img.jpg?v=0012.x".toList

/-- Page 12 fetches bytes `[1]`; every other page fetches `[2]`. -/
def envDup : Env :=
  ⟨fun u => if u = urlPage12 then some [1] else some [2],
    fun bb => some ⟨"RGB".toList, bb⟩, fun _ => false, false⟩

/-! ## Claim C1 -/

/-- Modelled from the spec's words (§4.1): the substitution the spec
describes — replacing only the FIRST textual occurrence of the matched
digit substring anywhere in the URL, leaving later occurrences
untouched. Used to compare the spec's described template against the one
the code builds. -/
def specReplaceFirst (s pat rep : Str) : Str :=
  match splitFirst pat s with
  | none => s
  | some (x, y) => x ++ rep ++ y

/-- Claim C1, counterexample: on `start_url = "http://7.com/7.jpg"` the
matched digit run is `"7"`, and the code's template replaces BOTH
occurrences of `"7"` (domain and file name) with the placeholder, whereas
the claim's first-occurrence substitution would leave the file-name `7`
in place; the two templates differ. -/
theorem C1_counterexample :
    extractDigitRun "http://7.com/7.jpg".toList = some "7".toList ∧
    extract_url_pattern "http://7.com/7.jpg".toList "http://7.com/9.jpg".toList =
      some ("http://".toList ++ phStr ++ ".com/".toList ++ phStr ++ ".jpg".toList,
        7, 9) ∧
    specReplaceFirst "http://7.com/7.jpg".toList "7".toList phStr =
      "http://".toList ++ phStr ++ ".com/7.jpg".toList ∧
    ("http://".toList ++ phStr ++ ".com/".toList ++ phStr ++ ".jpg".toList) ≠
      ("http://".toList ++ phStr ++ ".com/7.jpg".toList) := by
  refine ⟨by decide, by decide, by decide, by decide⟩

/-- Claim C1 (corrected): whenever pattern extraction succeeds, the two
digit runs are the (nonempty, maximal) decimal runs immediately preceding
the final `'.'` of each URL, the returned integers are their decimal
values, and the template is the start URL with EVERY textual occurrence of
the matched run replaced by the `"{:04d}"` placeholder (`replaceAll`,
i.e. Python `str.replace`) — not only the first occurrence. -/
theorem C1_template_structure (su eu tpl : Str) (s e : Nat)
    (hex : extract_url_pattern su eu = some (tpl, s, e)) :
    ∃ rs rs2 pre post pre2 post2,
      extractDigitRun su = some rs ∧ extractDigitRun eu = some rs2 ∧
      su = pre ++ rs ++ '.' :: post ∧ rs ≠ [] ∧
      (∀ c ∈ rs, c.isDigit = true) ∧ (∀ c ∈ post, c ≠ '.') ∧
      (∀ c, pre.getLast? = some c → c.isDigit = false) ∧
      eu = pre2 ++ rs2 ++ '.' :: post2 ∧ rs2 ≠ [] ∧
      (∀ c ∈ rs2, c.isDigit = true) ∧ (∀ c ∈ post2, c ≠ '.') ∧
      (∀ c, pre2.getLast? = some c → c.isDigit = false) ∧
      tpl = replaceAll su rs phStr ∧ s = digitsToNat rs ∧
      e = digitsToNat rs2 := by
  unfold extract_url_pattern at hex
  cases h1 : extractDigitRun su with
  | none => rw [h1] at hex; simp at hex
  | some rs =>
    cases h2 : extractDigitRun eu with
    | none => rw [h1, h2] at hex; simp at hex
    | some rs2 =>
      rw [h1, h2] at hex
      simp only [Option.some.injEq, Prod.mk.injEq] at hex
      obtain ⟨htpl, hs, he⟩ := hex
      obtain ⟨pre, post, hsu, hne, hdig, hpost, hpre⟩ :=
        extractDigitRun_spec su rs h1
      obtain ⟨pre2, post2, heu, hne2, hdig2, hpost2, hpre2⟩ :=
        extractDigitRun_spec eu rs2 h2
      exact ⟨rs, rs2, pre, post, pre2, post2, rfl, rfl, hsu, hne, hdig, hpost,
        hpre, heu, hne2, hdig2, hpost2, hpre2, htpl.symm, hs.symm, he.symm⟩

/-- Claim C1, witness: the corrected statement at a concrete URL pair. -/
theorem C1_witness :
    ∃ rs rs2 pre post pre2 post2,
      extractDigitRun "http://a.aa/x12.png".toList = some rs ∧
      extractDigitRun "https://zz.org/deep/path/15.gif".toList = some rs2 ∧
      "http://a.aa/x12.png".toList = pre ++ rs ++ '.' :: post ∧ rs ≠ [] ∧
      (∀ c ∈ rs, c.isDigit = true) ∧ (∀ c ∈ post, c ≠ '.') ∧
      (∀ c, pre.getLast? = some c → c.isDigit = false) ∧
      "https://zz.org/deep/path/15.gif".toList = pre2 ++ rs2 ++ '.' :: post2 ∧
      rs2 ≠ [] ∧ (∀ c ∈ rs2, c.isDigit = true) ∧ (∀ c ∈ post2, c ≠ '.') ∧
      (∀ c, pre2.getLast? = some c → c.isDigit = false) ∧
      ("http://a.aa/x".toList ++ phStr ++ ".png".toList) =
        replaceAll "http://a.aa/x12.png".toList rs phStr ∧
      12 = digitsToNat rs ∧ 15 = digitsToNat rs2 :=
  C1_template_structure "http://a.aa/x12.png".toList
    "https://zz.org/deep/path/15.gif".toList
    ("http://a.aa/x".toList ++ phStr ++ ".png".toList) 12 15 (by decide)

/-! ## Claim C7 -/

/-- Claim C7 (confirmed): when the extracted start index exceeds the end
index, the worker emits exactly the analyzing event and a terminal event
of status `error`, and no fetch is attempted (`fetchLog = []`). -/
theorem C7_reversed_range (env : Env) (dls0 : DlFS) (su eu name fmt tpl : Str)
    (s e : Nat) (hex : extract_url_pattern su eu = some (tpl, s, e))
    (hgt : e < s) :
    download_batch_worker env dls0 su eu name fmt =
      ⟨[evAnalyzing, evRangeErr], [], none, dls0⟩ ∧
    (download_batch_worker env dls0 su eu name fmt).trace.getLast? =
      some evRangeErr ∧
    evRangeErr.status = Status.error ∧
    (download_batch_worker env dls0 su eu name fmt).fetchLog = [] := by
  have h1 : download_batch_worker env dls0 su eu name fmt =
      ⟨[evAnalyzing, evRangeErr], [], none, dls0⟩ := by
    unfold download_batch_worker
    simp only [hex]
    rw [if_pos hgt]
  exact ⟨h1, by rw [h1]; rfl, rfl, by rw [h1]⟩

/-- Claim C7, witness: start index 9, end index 5. -/
theorem C7_witness :
    download_batch_worker envNoFetch [] "http://e.com/p9.jpg".toList
        "http://e.com/p5.jpg".toList "out".toList "zip".toList =
      ⟨[evAnalyzing, evRangeErr], [], none, []⟩ ∧
    (download_batch_worker envNoFetch [] "http://e.com/p9.jpg".toList
        "http://e.com/p5.jpg".toList "out".toList "zip".toList).trace.getLast? =
      some evRangeErr ∧
    evRangeErr.status = Status.error ∧
    (download_batch_worker envNoFetch [] "http://e.com/p9.jpg".toList
        "http://e.com/p5.jpg".toList "out".toList "zip".toList).fetchLog = [] :=
  C7_reversed_range envNoFetch [] _ _ _ _
    ("http://e.com/p".toList ++ phStr ++ ".jpg".toList) 9 5 (by decide) (by decide)

/-! ## Claim C4 -/

/-- Claim C4 (confirmed): in a batch whose every fetch fails, no packaging
function is invoked, the downloads directory is untouched, and the
terminal event has status `error`. -/
theorem C4_all_fetches_fail (env : Env) (dls0 : DlFS)
    (su eu name fmt tpl a b : Str) (s e : Nat)
    (hex : extract_url_pattern su eu = some (tpl, s, e)) (hse : s ≤ e)
    (hgood : goodTemplateB tpl = some (a, b))
    (hall : ∀ p ∈ pagesOf s e, env.fetch (pageUrl a b p) = none) :
    (download_batch_worker env dls0 su eu name fmt).pkg = none ∧
    (download_batch_worker env dls0 su eu name fmt).downloads = dls0 ∧
    (download_batch_worker env dls0 su eu name fmt).trace.getLast? =
      some (evNoImages (e - s + 1)) ∧
    (evNoImages (e - s + 1)).status = Status.error := by
  have hval : validImages env a b s e = [] := by
    unfold validImages loopImages
    rw [List.filterMap_eq_nil_iff]
    intro o ho
    rw [List.mem_map] at ho
    obtain ⟨p, hp, rfl⟩ := ho
    unfold itemResult
    rw [hall p hp]
    rfl
  have h1 := download_batch_worker_eq env dls0 su eu name fmt tpl a b s e
    hex hse hgood
  rw [hval, workerPost_nil] at h1
  refine ⟨by rw [h1], by rw [h1], ?_, rfl⟩
  rw [h1]
  exact getLast?_pre_tail [evAnalyzing, evStartBatch (e - s + 1)]
    (itemEvs (e - s + 1)) [evNoImages (e - s + 1)] _ rfl

/-- Claim C4, witness: a two-page batch in which both fetches fail. -/
theorem C4_witness :
    (download_batch_worker envNoFetch [] "http://e.com/a1.jpg".toList
        "http://e.com/a2.jpg".toList "out".toList "pdf".toList).pkg = none ∧
    (download_batch_worker envNoFetch [] "http://e.com/a1.jpg".toList
        "http://e.com/a2.jpg".toList "out".toList "pdf".toList).downloads = [] ∧
    (download_batch_worker envNoFetch [] "http://e.com/a1.jpg".toList
        "http://e.com/a2.jpg".toList "out".toList "pdf".toList).trace.getLast? =
      some (evNoImages (2 - 1 + 1)) ∧
    (evNoImages (2 - 1 + 1)).status = Status.error :=
  C4_all_fetches_fail envNoFetch [] _ _ _ _
    ("http://e.com/a".toList ++ phStr ++ ".jpg".toList)
    ("http://e.com/a".toList) (".jpg".toList) 1 2
    (by decide) (by decide) (by decide) (by decide)

/-! ## Claim C9 -/

/-- Claim C9 (confirmed): a single-download submission whose stripped URL is
empty or does not start with `http://` or `https://` is rejected with
HTTP 400 and the job registry is unchanged (the handler returns before the
insert and before any worker thread starts); a non-empty `http(s)` URL
yields status 200, the fresh job id, and the job registered. -/
theorem C9_single_validation (registry : List Str) (freshId : Str)
    (urlField : Option Str) :
    (pyStrip (urlField.getD []) = [] ∨
        ("http://".toList.isPrefixOf (pyStrip (urlField.getD [])) ||
          "https://".toList.isPrefixOf (pyStrip (urlField.getD []))) = false →
      download_single registry freshId urlField = ((400, none), registry)) ∧
    (pyStrip (urlField.getD []) ≠ [] →
      ("http://".toList.isPrefixOf (pyStrip (urlField.getD [])) ||
        "https://".toList.isPrefixOf (pyStrip (urlField.getD []))) = true →
      download_single registry freshId urlField =
        ((200, some freshId), freshId :: registry)) := by
  constructor
  · intro h
    unfold download_single
    rcases h with h | h
    · rw [if_pos (List.isEmpty_iff.mpr h)]
    · by_cases he : (pyStrip (urlField.getD [])).isEmpty = true
      · rw [if_pos he]
      · rw [if_neg he, if_pos (by rw [h]; rfl)]
  · intro hne htr
    unfold download_single
    rw [if_neg (by rw [List.isEmpty_eq_false.mpr hne]; simp)]
    rw [if_neg (by rw [htr]; simp)]

/-- Claim C9, witness: an `ftp://` URL is rejected with the registry
unchanged; an `http://` URL yields the job id and the registered job. -/
theorem C9_witness :
    download_single [] "id1".toList (some "ftp://x/y.jpg".toList) =
      ((400, none), []) ∧
    download_single [] "id1".toList (some "http://x/y.jpg".toList) =
      ((200, some "id1".toList), ["id1".toList]) :=
  ⟨(C9_single_validation [] "id1".toList (some "ftp://x/y.jpg".toList)).1
      (Or.inr (by decide)),
    (C9_single_validation [] "id1".toList (some "http://x/y.jpg".toList)).2
      (by decide) (by decide)⟩

/-! ## Claim C10 -/

/-- Claim C10 (confirmed, implicit): pattern extraction succeeds exactly
when each URL separately contains a digit run before its final extension
separator — no consistency between the two URLs is checked — and the
returned template and start value depend only on the start URL, while the
end URL is consulted only for its digit run's decimal value. -/
theorem C10_no_consistency_check (su eu eu' tpl tpl' : Str)
    (s e s' e' : Nat) :
    ((extract_url_pattern su eu).isSome = true ↔
      (extractDigitRun su).isSome = true ∧
        (extractDigitRun eu).isSome = true) ∧
    (extract_url_pattern su eu = some (tpl, s, e) →
      extract_url_pattern su eu' = some (tpl', s', e') →
      tpl = tpl' ∧ s = s') ∧
    (extract_url_pattern su eu = some (tpl, s, e) →
      ∃ rs2, extractDigitRun eu = some rs2 ∧ e = digitsToNat rs2) := by
  unfold extract_url_pattern
  cases h1 : extractDigitRun su with
  | none => simp
  | some rs =>
    cases h2 : extractDigitRun eu with
    | none => simp
    | some rs2 =>
      cases h3 : extractDigitRun eu' with
      | none =>
        refine ⟨by simp, by simp, ?_⟩
        intro hA
        simp only [Option.some.injEq, Prod.mk.injEq] at hA
        obtain ⟨-, -, hea⟩ := hA
        exact ⟨rs2, rfl, hea.symm⟩
      | some rs3 =>
        refine ⟨by simp, ?_, ?_⟩
        · intro hA hB
          simp only [Option.some.injEq, Prod.mk.injEq] at hA hB
          obtain ⟨hta, hsa, -⟩ := hA
          obtain ⟨htb, hsb, -⟩ := hB
          exact ⟨hta.symm.trans htb, hsa.symm.trans hsb⟩
        · intro hA
          simp only [Option.some.injEq, Prod.mk.injEq] at hA
          obtain ⟨-, -, hea⟩ := hA
          exact ⟨rs2, rfl, hea.symm⟩

/-- Claim C10, witness: two URLs with entirely different hosts, path depths
and digit-run widths still extract successfully. -/
theorem C10_witness :
    (extract_url_pattern "http://a.aa/x5.png".toList
      "https://zz.org/deep/path/99999.gif".toList).isSome = true :=
  (C10_no_consistency_check "http://a.aa/x5.png".toList
    "https://zz.org/deep/path/99999.gif".toList [] [] [] 0 0 0 0).1.mpr
    ⟨by decide, by decide⟩

/-! ## Claim C6 -/

/-- Claim C6 (confirmed): a per-item fetch failure is absorbed by
`download_image_to_temp` (it returns `None` and leaves the temp directory
unchanged — it cannot raise), and the fetch loop records exactly one item
per page regardless of fetch outcomes — each item depending only on its
own page's fetch — so one item's failure never aborts the batch. -/
theorem C6_per_item_failure_isolated (env : Env) (tpl a b url : Str)
    (total i : Nat) (ps : List Nat) (fs : TempFS)
    (hgood : goodTemplateB tpl = some (a, b)) :
    (env.fetch url = none →
      download_image_to_temp env.fetch url fs = (none, fs)) ∧
    (batchLoop env tpl total ps i fs).images =
      ps.map (fun p => itemResult env (pageUrl a b p)) ∧
    (batchLoop env tpl total ps i fs).images.length = ps.length ∧
    (batchLoop env tpl total ps i fs).raised = false := by
  refine ⟨?_, ?_, ?_, ?_⟩
  · intro hf
    unfold download_image_to_temp
    simp only [hf]
  · rw [batchLoop_eq env tpl a b total hgood]
  · rw [batchLoop_eq env tpl a b total hgood]
    simp
  · rw [batchLoop_eq env tpl a b total hgood]

/-- Claim C6, witness: with every fetch failing, the loop over pages 1 and 2
still records one (absent) item per page and does not raise. -/
theorem C6_witness :
    (envNoFetch.fetch "http://e.com/a0001.jpg".toList = none →
      download_image_to_temp envNoFetch.fetch "http://e.com/a0001.jpg".toList
        [] = (none, [])) ∧
    (batchLoop envNoFetch
        ("http://e.com/a".toList ++ phStr ++ ".jpg".toList) 2 [1, 2] 0 []).images =
      [1, 2].map (fun p => itemResult envNoFetch
        (pageUrl "http://e.com/a".toList ".jpg".toList p)) ∧
    (batchLoop envNoFetch
        ("http://e.com/a".toList ++ phStr ++ ".jpg".toList) 2 [1, 2] 0 []).images.length =
      [1, 2].length ∧
    (batchLoop envNoFetch
        ("http://e.com/a".toList ++ phStr ++ ".jpg".toList) 2 [1, 2] 0 []).raised =
      false :=
  C6_per_item_failure_isolated envNoFetch _ "http://e.com/a".toList
    ".jpg".toList "http://e.com/a0001.jpg".toList 2 0 [1, 2] [] (by decide)

/-! ## Claim C3 -/

/-- Claim C3, counterexample: for `start_url = "http://7.com/7.jpg"` and
`end_url = "http://7.com/9.jpg"` extraction yields the valid range
`[7, 9]` (so the claim demands 3 per-item events), but the digit run
`"7"` also occurs in the host, so the template carries two placeholders,
`str.format` raises `IndexError` in the first loop iteration, and the
worker emits ZERO per-item events before the terminal error event (and
performs no fetch). -/
theorem C3_counterexample :
    extract_url_pattern "http://7.com/7.jpg".toList
        "http://7.com/9.jpg".toList =
      some ("http://".toList ++ phStr ++ ".com/".toList ++ phStr ++
        ".jpg".toList, 7, 9) ∧
    (7 : Nat) ≤ 9 ∧
    download_batch_worker envNoFetch [] "http://7.com/7.jpg".toList
        "http://7.com/9.jpg".toList "out".toList "zip".toList =
      ⟨[evAnalyzing, evStartBatch 3, evCaught 3], [], none, []⟩ ∧
    ([evAnalyzing, evStartBatch 3, evCaught 3].filter isItemB) = [] ∧
    (evCaught 3).status = Status.error := by
  refine ⟨by decide, by decide, by decide, by decide, rfl⟩

/-- Claim C3 (corrected): provided additionally that the derived template
is one `str.format` accepts (exactly one placeholder — equivalently, the
matched digit run occurs exactly once in the start URL), the worker's
trace splits at a point `k` such that the events before `k` contain no
terminal event and their per-item events are exactly
`evItem 0, evItem 1, …, evItem (end−start)` in this ascending order, and
no per-item event occurs from `k` on. -/
theorem C3_item_events (env : Env) (dls0 : DlFS)
    (su eu name fmt tpl a b : Str) (s e : Nat)
    (hex : extract_url_pattern su eu = some (tpl, s, e)) (hse : s ≤ e)
    (hgood : goodTemplateB tpl = some (a, b)) :
    ∃ k,
      ((download_batch_worker env dls0 su eu name fmt).trace.take k).filter
          isItemB = itemEvs (e - s + 1) ∧
      ((download_batch_worker env dls0 su eu name fmt).trace.drop k).filter
          isItemB = [] ∧
      ∀ ev ∈ (download_batch_worker env dls0 su eu name fmt).trace.take k,
        isTerminalB ev = false := by
  rw [download_batch_worker_eq env dls0 su eu name fmt tpl a b s e
    hex hse hgood]
  obtain ⟨tail, htr, htail⟩ := workerPost_trace_shape env dls0 name fmt
    (e - s + 1) (itemEvs (e - s + 1)) (loopLog a b s e)
    (validImages env a b s e) (loopFS env a b s e)
  refine ⟨([evAnalyzing, evStartBatch (e - s + 1)] ++ itemEvs (e - s + 1)).length,
    ?_, ?_, ?_⟩
  · rw [htr, List.take_left, List.filter_append]
    have h1 : [evAnalyzing, evStartBatch (e - s + 1)].filter isItemB = [] := by
      simp [isItemB, evAnalyzing, evStartBatch]
    have h2 : (itemEvs (e - s + 1)).filter isItemB = itemEvs (e - s + 1) := by
      rw [List.filter_eq_self]
      intro ev hev
      unfold itemEvs at hev
      rw [List.mem_map] at hev
      obtain ⟨j, -, rfl⟩ := hev
      rfl
    rw [h1, h2, List.nil_append]
  · rw [htr, List.drop_left]
    exact htail
  · intro ev hev
    rw [htr, List.take_left] at hev
    rcases List.mem_append.mp hev with h | h
    · rcases (by simpa using h : ev = evAnalyzing ∨ ev = evStartBatch (e - s + 1))
        with rfl | rfl <;> rfl
    · unfold itemEvs at h
      rw [List.mem_map] at h
      obtain ⟨j, -, rfl⟩ := h
      rfl

/-- Claim C3, witness: the corrected statement for pages 1–3 of a batch in
which every fetch fails. -/
theorem C3_witness :
    ∃ k,
      ((download_batch_worker envNoFetch [] "http://e.com/a1.jpg".toList
          "http://e.com/a3.jpg".toList "out".toList "zip".toList).trace.take
            k).filter isItemB = itemEvs (3 - 1 + 1) ∧
      ((download_batch_worker envNoFetch [] "http://e.com/a1.jpg".toList
          "http://e.com/a3.jpg".toList "out".toList "zip".toList).trace.drop
            k).filter isItemB = [] ∧
      ∀ ev ∈ (download_batch_worker envNoFetch [] "http://e.com/a1.jpg".toList
          "http://e.com/a3.jpg".toList "out".toList "zip".toList).trace.take k,
        isTerminalB ev = false :=
  C3_item_events envNoFetch [] _ _ _ _
    ("http://e.com/a".toList ++ phStr ++ ".jpg".toList)
    "http://e.com/a".toList ".jpg".toList 1 3
    (by decide) (by decide) (by decide)

/-! ## Claim C2 -/

/-- Claim C2, counterexample: a one-page document (PDF) batch in which the
single fetch SUCCEEDS (the packager is invoked with that item), but the
fetched bytes do not decode as an image, so `images_to_pdf` returns
`False`: the job ends with a terminal error and NO output artifact is
produced (`downloads` stays empty), although at least one fetch
succeeded. -/
theorem C2_counterexample :
    download_batch_worker envBadImg [] "http://e.com/a7.jpg".toList
        "http://e.com/a7.jpg".toList "out".toList "pdf".toList =
      ⟨[evAnalyzing, evStartBatch 1, evItem 0 1, evSummary 1, evConvert 1,
          evFailedPkg 1],
        ["http://e.com/a0007.jpg".toList],
        some ("out.pdf".toList, ["a0007.jpg".toList]), []⟩ ∧
    envBadImg.fetch "http://e.com/a0007.jpg".toList = some [1, 2, 3] ∧
    (evFailedPkg 1).status = Status.error := by
  refine ⟨by decide, by decide, rfl⟩

/-- Claim C2 (corrected): under the additional hypotheses that packaging
succeeds (for the archive variant: no injected write fault; for the
document variant: every stored item decodes and the save does not fault),
a batch with at least one successful fetch produces exactly one artifact
— a single write of the output name into the downloads directory — whose
contents are exactly the successfully fetched items in original index
order: ZIP entries are the valid items' (name, bytes-at-packaging-time)
pairs in order, and PDF pages are the valid items' decoded RGB images in
order; the terminal event is `completed` and carries the artifact name. -/
theorem C2_artifact_exact (env : Env) (dls0 : DlFS) (su eu name tpl a b : Str)
    (s e : Nat)
    (hex : extract_url_pattern su eu = some (tpl, s, e)) (hse : s ≤ e)
    (hgood : goodTemplateB tpl = some (a, b))
    (hvne : validImages env a b s e ≠ [])
    (hzf : ∀ k, env.zipFail k = false)
    (hdec : ∀ n ∈ validImages env a b s e,
      (env.openImg (theBytes (loopFS env a b s e) n)).isSome = true)
    (hsave : env.pdfSaveFail = false) :
    ((download_batch_worker env dls0 su eu name "zip".toList).downloads =
        fsStore dls0 (name ++ ".zip".toList)
          (Artifact.zipArch ((validImages env a b s e).map
            (fun n => (n, theBytes (loopFS env a b s e) n)))) ∧
      (download_batch_worker env dls0 su eu name "zip".toList).trace.getLast? =
        some (evDone (e - s + 1) (name ++ ".zip".toList))) ∧
    ((download_batch_worker env dls0 su eu name "pdf".toList).downloads =
        fsStore dls0 (name ++ ".pdf".toList)
          (Artifact.pdf ((validImages env a b s e).map
            (fun n => toRGB
              ((env.openImg (theBytes (loopFS env a b s e) n)).getD ⟨[], []⟩)))) ∧
      (download_batch_worker env dls0 su eu name "pdf".toList).trace.getLast? =
        some (evDone (e - s + 1) (name ++ ".pdf".toList))) := by
  have hmem := fun n hn => validImages_mem env a b s e n hn
  have hpre1 : ∀ n ∈ validImages env a b s e,
      n.isEmpty = false ∧ (fsGet (loopFS env a b s e) n).isSome = true :=
    fun n hn => ⟨(hmem n hn).1, (hmem n hn).2.1⟩
  have hbase : ∀ n ∈ validImages env a b s e, basename n = n :=
    fun n hn => (hmem n hn).2.2
  constructor
  · have h1 := download_batch_worker_eq env dls0 su eu name "zip".toList
      tpl a b s e hex hse hgood
    rw [workerPost_zip_ok env dls0 name (e - s + 1) (itemEvs (e - s + 1))
      (loopLog a b s e) (validImages env a b s e) (loopFS env a b s e)
      hvne hpre1 hzf] at h1
    have hent : (validImages env a b s e).map
        (fun n => (basename n, theBytes (loopFS env a b s e) n)) =
        (validImages env a b s e).map
        (fun n => (n, theBytes (loopFS env a b s e) n)) :=
      List.map_congr_left (fun n hn => by rw [hbase n hn])
    rw [hent] at h1
    refine ⟨by rw [h1], ?_⟩
    rw [h1]
    exact getLast?_pre_tail [evAnalyzing, evStartBatch (e - s + 1)]
      (itemEvs (e - s + 1))
      [evSummary (e - s + 1), evConvert (e - s + 1),
        evDone (e - s + 1) (name ++ ".zip".toList)]
      (evDone (e - s + 1) (name ++ ".zip".toList)) rfl
  · have h1 := download_batch_worker_eq env dls0 su eu name "pdf".toList
      tpl a b s e hex hse hgood
    rw [workerPost_pdf_ok env dls0 name (e - s + 1) (itemEvs (e - s + 1))
      (loopLog a b s e) (validImages env a b s e) (loopFS env a b s e)
      hvne (fun n hn => ⟨(hmem n hn).1, (hmem n hn).2.1, hdec n hn⟩)
      hsave] at h1
    refine ⟨by rw [h1], ?_⟩
    rw [h1]
    exact getLast?_pre_tail [evAnalyzing, evStartBatch (e - s + 1)]
      (itemEvs (e - s + 1))
      [evSummary (e - s + 1), evConvert (e - s + 1),
        evDone (e - s + 1) (name ++ ".pdf".toList)]
      (evDone (e - s + 1) (name ++ ".pdf".toList)) rfl

/-- Claim C2, witness: the corrected statement for the two-page batch
`a1.jpg`–`a2.jpg` in which both fetches succeed and decode. -/
theorem C2_witness :
    ((download_batch_worker envAllOk [] "http://e.com/a1.jpg".toList
        "http://e.com/a2.jpg".toList "out".toList "zip".toList).downloads =
      fsStore [] ("out".toList ++ ".zip".toList)
        (Artifact.zipArch ((validImages envAllOk "http://e.com/a".toList
            ".jpg".toList 1 2).map
          (fun n => (n, theBytes (loopFS envAllOk "http://e.com/a".toList
            ".jpg".toList 1 2) n)))) ∧
      (download_batch_worker envAllOk [] "http://e.com/a1.jpg".toList
        "http://e.com/a2.jpg".toList "out".toList "zip".toList).trace.getLast? =
      some (evDone (2 - 1 + 1) ("out".toList ++ ".zip".toList))) ∧
    ((download_batch_worker envAllOk [] "http://e.com/a1.jpg".toList
        "http://e.com/a2.jpg".toList "out".toList "pdf".toList).downloads =
      fsStore [] ("out".toList ++ ".pdf".toList)
        (Artifact.pdf ((validImages envAllOk "http://e.com/a".toList
            ".jpg".toList 1 2).map
          (fun n => toRGB ((envAllOk.openImg (theBytes (loopFS envAllOk
            "http://e.com/a".toList ".jpg".toList 1 2) n)).getD ⟨[], []⟩)))) ∧
      (download_batch_worker envAllOk [] "http://e.com/a1.jpg".toList
        "http://e.com/a2.jpg".toList "out".toList "pdf".toList).trace.getLast? =
      some (evDone (2 - 1 + 1) ("out".toList ++ ".pdf".toList))) :=
  C2_artifact_exact envAllOk [] _ _ "out".toList
    ("http://e.com/a".toList ++ phStr ++ ".jpg".toList)
    "http://e.com/a".toList ".jpg".toList 1 2
    (by decide) (by decide) (by decide) (by decide) (fun _ => rfl)
    (by decide) rfl

/-! ## Claim C5 -/

/-- Claim C5, counterexample: a one-page archive batch in which writing the
first ZIP entry raises an I/O error.  `zipfile.ZipFile(path, 'w')` has
already created the file at its FINAL path, and closing writes the central
directory, so after the failure an (incomplete, zero-entry) archive is
visible under the final artifact name `out.zip` while the job ends with a
terminal error — refuting "no partial or half-written output is visible
under the final name". -/
theorem C5_counterexample :
    download_batch_worker envZipFault [] "http://e.com/a7.jpg".toList
        "http://e.com/a7.jpg".toList "out".toList "zip".toList =
      ⟨[evAnalyzing, evStartBatch 1, evItem 0 1, evSummary 1, evConvert 1,
          evFailedPkg 1],
        ["http://e.com/a0007.jpg".toList],
        some ("out.zip".toList, ["a0007.jpg".toList]),
        [("out.zip".toList, Artifact.zipArch [])]⟩ ∧
    fsGet (download_batch_worker envZipFault [] "http://e.com/a7.jpg".toList
        "http://e.com/a7.jpg".toList "out".toList "zip".toList).downloads
      "out.zip".toList = some (Artifact.zipArch []) ∧
    Artifact.zipArch [] ≠
      Artifact.zipArch [("a0007.jpg".toList, [5])] ∧
    (evFailedPkg 1).status = Status.error := by
  refine ⟨by decide, by decide, by decide, rfl⟩

/-- Claim C5 (corrected): when packaging fails, the job does terminate with
a terminal event of status `error` — but the atomicity half of the claim
is false (see the counterexample): a partial file may remain under the
final artifact name, because the output is written directly at its final
path with no cleanup on failure. -/
theorem C5_packaging_failure_error (env : Env) (dls0 : DlFS)
    (su eu name tpl a b : Str) (s e : Nat)
    (hex : extract_url_pattern su eu = some (tpl, s, e)) (hse : s ≤ e)
    (hgood : goodTemplateB tpl = some (a, b))
    (hvne : validImages env a b s e ≠ []) :
    ((images_to_zip env (loopFS env a b s e) (validImages env a b s e) dls0
        (name ++ ".zip".toList)).1 = false →
      (download_batch_worker env dls0 su eu name "zip".toList).trace.getLast? =
        some (evFailedPkg (e - s + 1))) ∧
    ((images_to_pdf env (loopFS env a b s e) (validImages env a b s e) dls0
        (name ++ ".pdf".toList)).1 = false →
      (download_batch_worker env dls0 su eu name "pdf".toList).trace.getLast? =
        some (evFailedPkg (e - s + 1))) ∧
    (evFailedPkg (e - s + 1)).status = Status.error := by
  refine ⟨?_, ?_, rfl⟩
  · intro hfail
    rw [download_batch_worker_eq env dls0 su eu name "zip".toList tpl a b s e
      hex hse hgood]
    rw [workerPost_zip_fail env dls0 name (e - s + 1) (itemEvs (e - s + 1))
      (loopLog a b s e) (validImages env a b s e) (loopFS env a b s e)
      hvne hfail]
    exact getLast?_pre_tail [evAnalyzing, evStartBatch (e - s + 1)]
      (itemEvs (e - s + 1))
      [evSummary (e - s + 1), evConvert (e - s + 1), evFailedPkg (e - s + 1)]
      (evFailedPkg (e - s + 1)) rfl
  · intro hfail
    rw [download_batch_worker_eq env dls0 su eu name "pdf".toList tpl a b s e
      hex hse hgood]
    rw [workerPost_pdf_fail env dls0 name (e - s + 1) (itemEvs (e - s + 1))
      (loopLog a b s e) (validImages env a b s e) (loopFS env a b s e)
      hvne hfail]
    exact getLast?_pre_tail [evAnalyzing, evStartBatch (e - s + 1)]
      (itemEvs (e - s + 1))
      [evSummary (e - s + 1), evConvert (e - s + 1), evFailedPkg (e - s + 1)]
      (evFailedPkg (e - s + 1)) rfl

/-- Claim C5, witness: the corrected statement applied to the faulting
archive job of the counterexample environment. -/
theorem C5_witness :
    (download_batch_worker envZipFault [] "http://e.com/a7.jpg".toList
        "http://e.com/a7.jpg".toList "out".toList "zip".toList).trace.getLast? =
      some (evFailedPkg (7 - 7 + 1)) :=
  (C5_packaging_failure_error envZipFault [] _ _ "out".toList
    ("http://e.com/a".toList ++ phStr ++ ".jpg".toList)
    "http://e.com/a".toList ".jpg".toList 7 7
    (by decide) (by decide) (by decide) (by decide)).1 (by decide)

/-! ## Claim C8 -/

/-- Claim C8, counterexample: in the batch from
`http://e.com/img.jpg?v=12.x` to `…?v=13.x` the digit run lies in the
query string, so BOTH pages share the base file name `img.jpg`: page 13
overwrites page 12's temp file, and the archive ends up with two entries
named `img.jpg` both holding page 13's bytes `[2]`.  Page 12 was
successfully fetched with bytes `[1]`, but reading its base filename from
the archive returns `[2] ≠ [1]` — its bytes are NOT recoverable. -/
theorem C8_counterexample :
    itemResult envDup urlPage12 = some "img.jpg".toList ∧
    envDup.fetch urlPage12 = some [1] ∧
    fsGet (download_batch_worker envDup [] "http://e.com/img.jpg?v=12.x".toList
        "http://e.com/img.jpg?v=13.x".toList "out".toList "zip".toList).downloads
      "out.zip".toList =
      some (Artifact.zipArch
        [("img.jpg".toList, [2]), ("img.jpg".toList, [2])]) ∧
    zipRead [("img.jpg".toList, [2]), ("img.jpg".toList, [2])]
      "img.jpg".toList = some [2] ∧
    ([2] : Bytes) ≠ [1] := by
  refine ⟨by decide, by decide, by decide, by decide, by decide⟩

/-- Claim C8 (corrected): the archive round-trip holds for every
successfully fetched item that is the LAST item bearing its base filename
(in particular for all items when base filenames are pairwise distinct):
with no injected write fault, the produced archive read at that item's
base filename returns exactly the item's fetched bytes.  Earlier items
sharing the name are overwritten (counterexample above). -/
theorem C8_last_item_recoverable (env : Env) (dls0 : DlFS)
    (su eu name tpl a b f : Str) (s e p : Nat) (bts : Bytes)
    (hex : extract_url_pattern su eu = some (tpl, s, e)) (hse : s ≤ e)
    (hgood : goodTemplateB tpl = some (a, b))
    (hzf : ∀ k, env.zipFail k = false)
    (hp : p ∈ pagesOf s e)
    (hres : itemResult env (pageUrl a b p) = some f)
    (hf : env.fetch (pageUrl a b p) = some bts)
    (hlast : ∀ q ∈ pagesOf s e, p < q →
      itemResult env (pageUrl a b q) ≠ some f) :
    ∃ entries,
      fsGet (download_batch_worker env dls0 su eu name
          "zip".toList).downloads (name ++ ".zip".toList) =
        some (Artifact.zipArch entries) ∧
      zipRead entries f = some bts := by
  have hmemv : f ∈ validImages env a b s e := by
    unfold validImages loopImages
    exact List.mem_filterMap.mpr ⟨some f, List.mem_map.mpr ⟨p, hp, hres⟩, rfl⟩
  have hvne := List.ne_nil_of_mem hmemv
  have hmem := fun n hn => validImages_mem env a b s e n hn
  have hpre1 : ∀ n ∈ validImages env a b s e,
      n.isEmpty = false ∧ (fsGet (loopFS env a b s e) n).isSome = true :=
    fun n hn => ⟨(hmem n hn).1, (hmem n hn).2.1⟩
  have hbase : ∀ n ∈ validImages env a b s e, basename n = n :=
    fun n hn => (hmem n hn).2.2
  have hlook : fsGet (loopFS env a b s e) f = some bts :=
    loopFS_last env a b f s e p bts hp hres hf hlast
  rw [download_batch_worker_eq env dls0 su eu name "zip".toList tpl a b s e
    hex hse hgood]
  rw [workerPost_zip_ok env dls0 name (e - s + 1) (itemEvs (e - s + 1))
    (loopLog a b s e) (validImages env a b s e) (loopFS env a b s e)
    hvne hpre1 hzf]
  have hent : (validImages env a b s e).map
      (fun n => (basename n, theBytes (loopFS env a b s e) n)) =
      (validImages env a b s e).map
      (fun n => (n, theBytes (loopFS env a b s e) n)) :=
    List.map_congr_left (fun n hn => by rw [hbase n hn])
  refine ⟨(validImages env a b s e).map
    (fun n => (n, theBytes (loopFS env a b s e) n)), ?_, ?_⟩
  · rw [hent]
    rw [fsGet_fsStore, if_pos rfl]
  · unfold zipRead
    have hflt : ((validImages env a b s e).map
        (fun n => (n, theBytes (loopFS env a b s e) n))).filter
          (fun ent => ent.1 = f) =
        ((validImages env a b s e).filter (fun n => n = f)).map
          (fun n => (n, theBytes (loopFS env a b s e) n)) :=
      List.filter_map (fun n => (n, theBytes (loopFS env a b s e) n))
        (validImages env a b s e)
    rw [hflt]
    have hfin : f ∈ (validImages env a b s e).filter (fun n => n = f) :=
      List.mem_filter.mpr ⟨hmemv, by simp⟩
    have hall : ∀ x ∈ ((validImages env a b s e).filter
        (fun n => n = f)).map
          (fun n => (n, theBytes (loopFS env a b s e) n)),
        x = (f, theBytes (loopFS env a b s e) f) := by
      intro x hx
      rw [List.mem_map] at hx
      obtain ⟨n, hn, rfl⟩ := hx
      have := (List.mem_filter.mp hn).2
      have hnf : n = f := by simpa using this
      rw [hnf]
    rw [getLast?_of_all_eq _ (f, theBytes (loopFS env a b s e) f)
      (by
        intro hnil
        have hfnil : (validImages env a b s e).filter (fun n => n = f) = [] := by
          simpa using hnil
        rw [hfnil] at hfin
        simp at hfin
      ) hall]
    have : theBytes (loopFS env a b s e) f = bts := by
      unfold theBytes
      rw [hlook]
      rfl
    rw [this]
    rfl

/-- Claim C8, witness: in the batch `a1.jpg`–`a2.jpg` the item of page 2
(the last bearing its base name `a0002.jpg`) is recoverable from the
archive with exactly its fetched bytes `[7]`. -/
theorem C8_witness :
    ∃ entries,
      fsGet (download_batch_worker envAllOk [] "http://e.com/a1.jpg".toList
          "http://e.com/a2.jpg".toList "out".toList "zip".toList).downloads
        ("out".toList ++ ".zip".toList) =
        some (Artifact.zipArch entries) ∧
      zipRead entries "a0002.jpg".toList = some [7] :=
  C8_last_item_recoverable envAllOk [] _ _ "out".toList
    ("http://e.com/a".toList ++ phStr ++ ".jpg".toList)
    "http://e.com/a".toList ".jpg".toList "a0002.jpg".toList 1 2 2 [7]
    (by decide) (by decide) (by decide) (fun _ => rfl)
    (by decide) (by decide) (by decide) (by decide)
